import Mathlib

/-!
Verification of the `chaincode` package of `hyperledger-fabric-basic`
(`src/asset-transfer-project/chaincode-go/chaincode/smartcontract.go`).

The world state is the key-value store exposed by the ledger platform
(`GetState` / `PutState` / `DelState`).  The chaincode only ever stores the
JSON encodings of its `User` and `Car` structs, so a stored value is modelled
as one of those two records.  `float32` currency amounts (`Balance`, `Price`)
are modelled as exact integers (minor currency units): the engine only adds,
subtracts and compares them, and §9 of the design itself calls for an
integer minor-unit representation of money.

Persistence failures are modelled by an oracle `wf : String → Bool` saying
for which keys a `PutState` / `DelState` call fails; a failed call leaves the
store unchanged and yields an error value, which the Go code either returns
or — at four call sites — silently discards.
-/

namespace Chaincode

/-- A car malfunction record (`Malfunction` struct, smartcontract.go lines 16-19). -/
structure Malfunction where
  Description : String
  Price : Int
  deriving Repr, DecidableEq

/-- A user record (`User` struct, smartcontract.go lines 21-28). -/
structure User where
  ID : String
  DocType : String
  FirstName : String
  LastName : String
  Email : String
  Balance : Int
  deriving Repr, DecidableEq

/-- A car record (`Car` struct, smartcontract.go lines 30-40). -/
structure Car where
  ID : String
  DocType : String
  Brand : String
  Model : String
  Year : String
  Color : String
  Owner : String
  Price : Int
  Malfunctions : List Malfunction
  deriving Repr, DecidableEq

/-- A value stored in the world state: the JSON bytes of a marshalled `User`
or of a marshalled `Car`.  The chaincode never writes anything else. -/
inductive StoredVal where
  | userVal (u : User)
  | carVal (c : Car)
  deriving Repr, DecidableEq

/-- The world state: a key-value map, `GetState` is application. -/
abbrev WorldState := String → Option StoredVal

/-- Effect of a successful `PutState k v`. -/
def putState (st : WorldState) (k : String) (v : StoredVal) : WorldState :=
  fun q => if q = k then some v else st q

/-- Effect of a successful `DelState k`. -/
def delState (st : WorldState) (k : String) : WorldState :=
  fun q => if q = k then none else st q

/-- The oracle describing which keys' `PutState` / `DelState` calls fail.
`noFail` is normal operation: every write succeeds. -/
def noFail : String → Bool := fun _ => false

/-- The opaque error value produced by a failing `PutState` / `DelState`
call of the ledger platform (its exact message is platform-internal). -/
def persistenceFailure : String := "persistence failure"

/-- A `PutState` call whose error result the Go code *discards* (the bare
`ctx.GetStub().PutState(...)` statements at smartcontract.go lines 260, 266,
313 and 319): on failure the write is not applied and the error is lost. -/
def putStateIgnored (wf : String → Bool) (st : WorldState) (k : String)
    (v : StoredVal) : WorldState :=
  if wf k then st else putState st k v

/-- Go's `json.Unmarshal` of stored user bytes into the `Car` struct: JSON
fields with no matching struct field (`firstName`, `balance`, ...) are
ignored, absent fields keep their zero value, so only `ID` and `DocType`
carry over and the decode *succeeds*. -/
def carOfUser (u : User) : Car :=
  { ID := u.ID, DocType := u.DocType, Brand := "", Model := "", Year := "",
    Color := "", Owner := "", Price := 0, Malfunctions := [] }

/-- Go's `json.Unmarshal` of stored car bytes into the `User` struct
(unknown fields ignored, absent fields zero-valued). -/
def userOfCar (c : Car) : User :=
  { ID := c.ID, DocType := c.DocType, FirstName := "", LastName := "",
    Email := "", Balance := 0 }

/-- `json.Unmarshal(bytes, &car)` on a stored value.  Both stored shapes are
well-formed JSON objects, and Go's decoder ignores unknown fields, so the
decode never fails on a value this chaincode writes; the `Option` mirrors
the error check in the Go code (smartcontract.go lines 141-145). -/
def unmarshalCar : StoredVal → Option Car
  | .carVal c => some c
  | .userVal u => some (carOfUser u)

/-- `json.Unmarshal(bytes, &user)` on a stored value (see `unmarshalCar`). -/
def unmarshalUser : StoredVal → Option User
  | .userVal u => some u
  | .carVal c => some (userOfCar c)

/-- Total version of `unmarshalCar`. -/
def carOfStored : StoredVal → Car
  | .carVal c => c
  | .userVal u => carOfUser u

/-- `ReadCar` (smartcontract.go lines 129-148): look up the key, decode as
`Car`. -/
def readCar (st : WorldState) (id : String) : Except String Car :=
  match st id with
  | none => .error ("the car " ++ id ++ " does not exist")
  | some v =>
    match unmarshalCar v with
    | none => .error ("couldn't find car with id " ++ id)
    | some car => .ok car

/-- `ReadUser` (smartcontract.go lines 150-169). -/
def readUser (st : WorldState) (id : String) : Except String User :=
  match st id with
  | none => .error ("the user " ++ id ++ " does not exist")
  | some v =>
    match unmarshalUser v with
    | none => .error ("couldn't find user with id " ++ id)
    | some user => .ok user

/-- The running total `acc + Σ price` computed by the `for ... += mf.Price`
loops; `AddMalfunction` starts the accumulator at the new price
(line 102), `BuyCar` and `FixCar` start it at `0` (lines 234, 295). -/
def malfTotal (init : Int) (ms : List Malfunction) : Int :=
  ms.foldl (fun acc m => acc + m.Price) init

/-- `AssetExists` (smartcontract.go lines 204-212): `GetState` result non-nil. -/
def assetExists (st : WorldState) (id : String) : Bool :=
  (st id).isSome

/-- `DeleteAsset` (smartcontract.go lines 191-201): fail if the key is
absent, otherwise `DelState` it. -/
def deleteAsset (wf : String → Bool) (st : WorldState) (id : String) :
    WorldState × Option String :=
  if assetExists st id then
    if wf id then (st, some persistenceFailure) else (delState st id, none)
  else
    (st, some ("the asset " ++ id ++ " does not exist"))

/-- `AddMalfunction` (smartcontract.go lines 91-126): read the car, reject a
non-positive price, compute `price + Σ existing prices`; if that strictly
exceeds `car.Price` return `DeleteAsset`'s outcome, otherwise append the
malfunction and persist the car. -/
def addMalfunction (wf : String → Bool) (st : WorldState) (id desc : String)
    (price : Int) : WorldState × Option String :=
  match readCar st id with
  | .error e => (st, some e)
  | .ok car =>
    if price ≤ 0 then (st, some "price can't be zero or lower")
    else
      let totalMalfunctionPrice := malfTotal price car.Malfunctions
      if car.Price < totalMalfunctionPrice then
        deleteAsset wf st id
      else
        let car2 := { car with
          Malfunctions := car.Malfunctions ++ [⟨desc, price⟩] }
        if wf id then (st, some persistenceFailure)
        else (putState st id (.carVal car2), none)

/-- `ChangeColor` (smartcontract.go lines 172-188); the write goes to key
`car.ID` (line 187), not to the `id` argument. -/
def changeColor (wf : String → Bool) (st : WorldState) (id color : String) :
    WorldState × Option String :=
  match readCar st id with
  | .error e => (st, some e)
  | .ok car =>
    let car2 := { car with Color := color }
    if wf car2.ID then (st, some persistenceFailure)
    else (putState st car2.ID (.carVal car2), none)

/-- The second half of `BuyCar` (smartcontract.go lines 248-273), after the
effective price `carTotalPrice` has been determined: balance check, then the
three writes — old owner (key `oldUSer.ID`) and new owner (key `newOwner`)
with their error results discarded, then the car (key `id`) whose error is
returned. -/
def buyCarSettle (wf : String → Bool) (st : WorldState) (id newOwner : String)
    (car : Car) (oldUser newUser : User) (carTotalPrice : Int) :
    WorldState × Option String :=
  if newUser.Balance < carTotalPrice then
    (st, some ("user " ++ newOwner ++ " doesn't have enough money for purchase"))
  else
    let newUser2 := { newUser with Balance := newUser.Balance - carTotalPrice }
    let oldUser2 := { oldUser with Balance := oldUser.Balance + carTotalPrice }
    let car2 := { car with Owner := newOwner }
    let st1 := putStateIgnored wf st oldUser2.ID (.userVal oldUser2)
    let st2 := putStateIgnored wf st1 newOwner (.userVal newUser2)
    if wf id then (st2, some persistenceFailure)
    else (putState st2 id (.carVal car2), none)

/-- `BuyCar` (smartcontract.go lines 215-274): read car, current owner and
prospective owner; with unacknowledged malfunctions cancel the sale, with
acknowledged ones discount the price by the malfunction total; then settle. -/
def buyCar (wf : String → Bool) (st : WorldState) (id newOwner : String)
    (flag : Bool) : WorldState × Option String :=
  match readCar st id with
  | .error e => (st, some e)
  | .ok car =>
    match readUser st car.Owner with
    | .error e => (st, some e)
    | .ok oldUser =>
      match readUser st newOwner with
      | .error e => (st, some e)
      | .ok newUser =>
        let mfCosts := malfTotal 0 car.Malfunctions
        if 0 < mfCosts then
          if flag then
            buyCarSettle wf st id newOwner car oldUser newUser
              (car.Price - mfCosts)
          else
            (st, some "car purhcase has been canceled due to car malfunctions")
        else
          buyCarSettle wf st id newOwner car oldUser newUser car.Price

/-- `FixCar` (smartcontract.go lines 276-327): read car, its owner and the
hardcoded mechanic `"user3"`; check the owner can pay the malfunction total;
clear the malfunction list, debit the owner, credit the mechanic; writes to
`owner.ID` and `mechanic.ID` discard their error results, the car write's
error is returned. -/
def fixCar (wf : String → Bool) (st : WorldState) (id : String) :
    WorldState × Option String :=
  match readCar st id with
  | .error e => (st, some e)
  | .ok car =>
    match readUser st car.Owner with
    | .error e => (st, some e)
    | .ok owner =>
      match readUser st "user3" with
      | .error e => (st, some e)
      | .ok mechanic =>
        let price := malfTotal 0 car.Malfunctions
        if owner.Balance < price then
          (st, some ("user " ++ owner.ID ++ " doesn't have enough money for repair costs"))
        else
          let car2 := { car with Malfunctions := [] }
          let owner2 := { owner with Balance := owner.Balance - price }
          let mechanic2 := { mechanic with Balance := mechanic.Balance + price }
          let st1 := putStateIgnored wf st owner2.ID (.userVal owner2)
          let st2 := putStateIgnored wf st1 mechanic2.ID (.userVal mechanic2)
          if wf id then (st2, some persistenceFailure)
          else (putState st2 id (.carVal car2), none)

/-- `constructQueryResponseFromIterator` (smartcontract.go lines 361-382):
decode each query result as a `Car`, aborting the whole collection on the
first decode error.  The rich-query facility itself is external; its matched
`(key, value)` records are the input. -/
def constructQueryResponseFromIterator :
    List (String × StoredVal) → Except String (List Car)
  | [] => .ok []
  | r :: rest =>
    match unmarshalCar r.2 with
    | none => .error "decode failure"
    | some car =>
      match constructQueryResponseFromIterator rest with
      | .error e => .error e
      | .ok cars => .ok (car :: cars)

/-- `QueryAssets` (smartcontract.go lines 344-346) passes the caller's raw
selector to the external query facility and decodes whatever it matched;
the matched records are modelled as the input list. -/
def queryAssets (results : List (String × StoredVal)) :
    Except String (List Car) :=
  constructQueryResponseFromIterator results

/-! ### Basic lemmas about the store and the malfunction totals -/

theorem putState_apply_same (st : WorldState) (k : String) (v : StoredVal) :
    putState st k v k = some v := by
  simp [putState]

theorem putState_apply_of_ne (st : WorldState) (k : String) (v : StoredVal)
    {q : String} (h : q ≠ k) : putState st k v q = st q := by
  simp [putState, h]

theorem delState_apply_same (st : WorldState) (k : String) :
    delState st k k = none := by
  simp [delState]

theorem delState_apply_of_ne (st : WorldState) (k : String)
    {q : String} (h : q ≠ k) : delState st k q = st q := by
  simp [delState, h]

theorem putStateIgnored_noFail (st : WorldState) (k : String) (v : StoredVal) :
    putStateIgnored noFail st k v = putState st k v := by
  simp [putStateIgnored, noFail]

/-- Shifting the accumulator of the price-summing loop out of the fold. -/
theorem malfTotal_shift (init : Int) (ms : List Malfunction) :
    malfTotal init ms = init + malfTotal 0 ms := by
  induction ms generalizing init with
  | nil => simp [malfTotal]
  | cons m rest ih =>
    simp only [malfTotal, List.foldl_cons] at *
    rw [ih (init + m.Price), ih (0 + m.Price)]
    ring

/-- A list of strictly positive malfunction prices has a nonnegative total. -/
theorem malfTotal_nonneg (ms : List Malfunction)
    (h : ∀ m ∈ ms, 0 < m.Price) : 0 ≤ malfTotal 0 ms := by
  induction ms with
  | nil => simp [malfTotal]
  | cons m rest ih =>
    simp only [malfTotal, List.foldl_cons, zero_add]
    rw [show rest.foldl (fun acc m => acc + m.Price) m.Price
          = malfTotal m.Price rest from rfl, malfTotal_shift]
    have h1 : 0 < m.Price := h m (by simp)
    have h2 : 0 ≤ malfTotal 0 rest := ih (fun x hx => h x (by simp [hx]))
    linarith

/-- A successful `ReadCar` means the key is present. -/
theorem readCar_ok_isSome {st : WorldState} {id : String} {car : Car}
    (h : readCar st id = .ok car) : ∃ v, st id = some v := by
  unfold readCar at h
  cases hv : st id with
  | none => rw [hv] at h; exact absurd h (by simp)
  | some v => exact ⟨v, rfl⟩

/-- `unmarshalCar` never fails on a value this chaincode writes. -/
theorem unmarshalCar_eq_carOfStored (v : StoredVal) :
    unmarshalCar v = some (carOfStored v) := by
  cases v <;> rfl

/-! ### Evaluation of the success paths of `BuyCar` and `FixCar` -/

/-- `buyCarSettle` under `noFail` with a sufficient balance: credit the old
owner at key `oldUser.ID`, debit the new owner at key `newOwner`, then write
the car at key `id` — later writes shadowing earlier ones to the same key. -/
theorem buyCarSettle_noFail (st : WorldState) (id newOwner : String)
    (car : Car) (oldUser newUser : User) (p : Int)
    (hbal : ¬ newUser.Balance < p) :
    buyCarSettle noFail st id newOwner car oldUser newUser p =
      (putState
        (putState
          (putState st oldUser.ID
            (.userVal { oldUser with Balance := oldUser.Balance + p }))
          newOwner (.userVal { newUser with Balance := newUser.Balance - p }))
        id (.carVal { car with Owner := newOwner }), none) := by
  simp [buyCarSettle, hbal, putStateIgnored, noFail]

/-- The success path of `BuyCar` under `noFail`: with the three reads
succeeding, malfunctions acknowledged when present, and the buyer solvent
for the effective price `p`, the final store is the three writes in order. -/
theorem buyCar_success_state (st : WorldState) (id newOwner : String)
    (flag : Bool) (car : Car) (oldUser newUser : User) (p : Int)
    (hcar : readCar st id = .ok car)
    (hold : readUser st car.Owner = .ok oldUser)
    (hnew : readUser st newOwner = .ok newUser)
    (hflag : 0 < malfTotal 0 car.Malfunctions → flag = true)
    (hp : p = if 0 < malfTotal 0 car.Malfunctions then
            car.Price - malfTotal 0 car.Malfunctions else car.Price)
    (hbal : ¬ newUser.Balance < p) :
    buyCar noFail st id newOwner flag =
      (putState
        (putState
          (putState st oldUser.ID
            (.userVal { oldUser with Balance := oldUser.Balance + p }))
          newOwner (.userVal { newUser with Balance := newUser.Balance - p }))
        id (.carVal { car with Owner := newOwner }), none) := by
  unfold buyCar
  rw [hcar]
  dsimp only
  rw [hold]
  dsimp only
  rw [hnew]
  dsimp only
  by_cases hm : 0 < malfTotal 0 car.Malfunctions
  · rw [if_pos hm] at hp
    subst hp
    rw [if_pos hm, hflag hm, if_pos rfl]
    exact buyCarSettle_noFail st id newOwner car oldUser newUser _ hbal
  · rw [if_neg hm] at hp
    subst hp
    rw [if_neg hm]
    exact buyCarSettle_noFail st id newOwner car oldUser newUser _ hbal

/-- The success path of `FixCar` under `noFail`: debit the owner at key
`owner.ID`, credit the mechanic at key `mechanic.ID`, then write the
repaired car at key `id`. -/
theorem fixCar_success_state (st : WorldState) (id : String) (car : Car)
    (owner mechanic : User)
    (hcar : readCar st id = .ok car)
    (hown : readUser st car.Owner = .ok owner)
    (hmech : readUser st "user3" = .ok mechanic)
    (hbal : ¬ owner.Balance < malfTotal 0 car.Malfunctions) :
    fixCar noFail st id =
      (putState
        (putState
          (putState st owner.ID
            (.userVal { owner with
              Balance := owner.Balance - malfTotal 0 car.Malfunctions }))
          mechanic.ID (.userVal { mechanic with
            Balance := mechanic.Balance + malfTotal 0 car.Malfunctions }))
        id (.carVal { car with Malfunctions := [] }), none) := by
  unfold fixCar
  rw [hcar]
  dsimp only
  rw [hown]
  dsimp only
  rw [hmech]
  simp [hbal, putStateIgnored, noFail]

/-! ### Concrete sample data (the `InitLedger` seed records,
smartcontract.go lines 43-57, with some malfunctions accumulated) -/

def user1V : User :=
  { ID := "user1", DocType := "user", FirstName := "Marko",
    LastName := "Markovic", Email := "marko@gugl.com", Balance := 9000 }

def user2V : User :=
  { ID := "user2", DocType := "user", FirstName := "Petar",
    LastName := "Petrovic", Email := "petar@jahu.com", Balance := 3500 }

def user3V : User :=
  { ID := "user3", DocType := "user", FirstName := "Nikola",
    LastName := "Nikolic", Email := "nikola@bing.com", Balance := 4000 }

def car1V : Car :=
  { ID := "car1", DocType := "car", Brand := "Ferrari", Model := "F40",
    Year := "1990", Color := "Red", Owner := "user1", Price := 5000,
    Malfunctions := [] }

def car2V : Car :=
  { ID := "car2", DocType := "car", Brand := "Rolls Royce",
    Model := "Phantom", Year := "2018", Color := "Black", Owner := "user1",
    Price := 20000, Malfunctions := [⟨"Water leaks", 1500⟩] }

def car5V : Car :=
  { ID := "car5", DocType := "car", Brand := "Tesla", Model := "S",
    Year := "2019", Color := "White", Owner := "user2", Price := 9000,
    Malfunctions := [⟨"Broken windshields", 5000⟩] }

/-- A car owned by the mechanic account `"user3"` itself. -/
def car9V : Car :=
  { ID := "car9", DocType := "car", Brand := "Mazda", Model := "6",
    Year := "2018", Color := "Grey", Owner := "user3", Price := 1000,
    Malfunctions := [⟨"Scratched paint", 100⟩] }

/-- A sample world state with the three seeded users and four cars. -/
def initState : WorldState := fun k =>
  if k = "user1" then some (.userVal user1V)
  else if k = "user2" then some (.userVal user2V)
  else if k = "user3" then some (.userVal user3V)
  else if k = "car1" then some (.carVal car1V)
  else if k = "car2" then some (.carVal car2V)
  else if k = "car5" then some (.carVal car5V)
  else if k = "car9" then some (.carVal car9V)
  else none

/-- The empty world state. -/
def emptyState : WorldState := fun _ => none

/-- A fault oracle under which the platform write to key `"user2"` (the old
owner in a sale of `car5V`) fails and every other write succeeds. -/
def wfOldOwner : String → Bool := fun k => k == "user2"

/-! ### Handlers other than `BuyCar` / `FixCar` never write a user record -/

/-- `AddMalfunction` writes (or deletes) only the car key; any user record
present afterwards was present, unchanged, before. -/
theorem addMalfunction_preserves_users (wf : String → Bool) (st : WorldState)
    (id desc : String) (price : Int) (k : String) (u : User)
    (h : (addMalfunction wf st id desc price).1 k = some (.userVal u)) :
    st k = some (.userVal u) := by
  unfold addMalfunction deleteAsset at h
  split at h
  · exact h
  · dsimp only at h
    split at h
    · exact h
    · split at h
      · split at h
        · split at h
          · exact h
          · dsimp only at h
            by_cases hk : k = id
            · rw [hk, delState_apply_same] at h
              exact absurd h (by simp)
            · rw [delState_apply_of_ne _ _ hk] at h
              exact h
        · exact h
      · split at h
        · exact h
        · dsimp only at h
          by_cases hk : k = id
          · rw [hk, putState_apply_same] at h
            exact absurd h (by simp)
          · rw [putState_apply_of_ne _ _ _ hk] at h
            exact h

/-- `ChangeColor` writes only the car key. -/
theorem changeColor_preserves_users (wf : String → Bool) (st : WorldState)
    (id color : String) (k : String) (u : User)
    (h : (changeColor wf st id color).1 k = some (.userVal u)) :
    st k = some (.userVal u) := by
  unfold changeColor at h
  cases hr : readCar st id with
  | error e => rw [hr] at h; exact h
  | ok car =>
    rw [hr] at h
    dsimp only at h
    split at h
    · exact h
    · dsimp only at h
      by_cases hk : k = car.ID
      · rw [hk, putState_apply_same] at h
        exact absurd h (by simp)
      · rw [putState_apply_of_ne _ _ _ hk] at h
        exact h

/-- `DeleteAsset` only removes a key; it rewrites no user record. -/
theorem deleteAsset_preserves_users (wf : String → Bool) (st : WorldState)
    (id : String) (k : String) (u : User)
    (h : (deleteAsset wf st id).1 k = some (.userVal u)) :
    st k = some (.userVal u) := by
  unfold deleteAsset at h
  split at h
  · split at h
    · exact h
    · dsimp only at h
      by_cases hk : k = id
      · rw [hk, delState_apply_same] at h
        exact absurd h (by simp)
      · rw [delState_apply_of_ne _ _ hk] at h
        exact h
  · exact h

/-! ### The claims -/

/-- C1: for every `AddMalfunction(id, description, price)` call where the
car exists, `price > 0`, and `price` plus the sum of the car's existing
malfunction prices strictly exceeds `car.Price`, the operation returns the
deletion operation's outcome verbatim; under normal persistence the car
record is gone, the new malfunction is never persisted, and every other key
is untouched. -/
theorem claim_C1_writeoff_delete (wf : String → Bool) (st : WorldState)
    (id desc : String) (price : Int) (car : Car)
    (hcar : readCar st id = .ok car)
    (hpos : 0 < price)
    (hover : car.Price < malfTotal price car.Malfunctions) :
    addMalfunction wf st id desc price = deleteAsset wf st id ∧
    (wf id = false →
      (addMalfunction wf st id desc price).2 = none ∧
      (addMalfunction wf st id desc price).1 id = none ∧
      ∀ k, k ≠ id → (addMalfunction wf st id desc price).1 k = st k) := by
  have hmain : addMalfunction wf st id desc price = deleteAsset wf st id := by
    unfold addMalfunction
    rw [hcar]
    dsimp only
    rw [if_neg (not_le.mpr hpos)]
    rw [if_pos hover]
  refine ⟨hmain, fun hwf => ?_⟩
  obtain ⟨v, hv⟩ := readCar_ok_isSome hcar
  have hdel : deleteAsset wf st id = (delState st id, none) := by
    unfold deleteAsset assetExists
    rw [hv]
    simp [hwf]
  rw [hmain, hdel]
  exact ⟨rfl, delState_apply_same st id,
    fun k hk => delState_apply_of_ne st id hk⟩

/-- Witness for C1: adding a 2000 malfunction to `car9V` (price 1000, 100
already accumulated) deletes the car and leaves `"user1"` untouched. -/
theorem claim_C1_writeoff_delete_witness :
    addMalfunction noFail initState "car9" "Engine fire" 2000 =
      deleteAsset noFail initState "car9" ∧
    (addMalfunction noFail initState "car9" "Engine fire" 2000).2 = none ∧
    (addMalfunction noFail initState "car9" "Engine fire" 2000).1 "car9" = none ∧
    (addMalfunction noFail initState "car9" "Engine fire" 2000).1 "user1" =
      initState "user1" := by
  have h := claim_C1_writeoff_delete noFail initState "car9" "Engine fire" 2000
    car9V rfl (by decide) (by decide)
  exact ⟨h.1, (h.2 rfl).1, (h.2 rfl).2.1, (h.2 rfl).2.2 "user1" (by decide)⟩

/-- C2 counterexample: `BuyCar("car1", "user1", true)` on `initState` is a
*successful* call (`car1V` is already owned by `"user1"`), and the old owner
and new owner are the same user, so the claimed
`oldOwner.Balance_after = oldOwner.Balance_before + effectivePrice`
(here `9000 + 5000 = 14000`) is false: the debit-carrying second write
overwrites the credit and the stored balance is `4000`. -/
theorem claim_C2_counterexample :
    (buyCar noFail initState "car1" "user1" true).2 = none ∧
    (buyCar noFail initState "car1" "user1" true).1 "user1" =
      some (.userVal { user1V with Balance := 4000 }) ∧
    user1V.Balance + 5000 ≠ (4000 : Int) :=
  ⟨by decide, by decide, by decide⟩

/-- C2 (amended): for every successful `BuyCar` call *in which the old
owner's record and the new owner's record live under distinct keys* (and
neither coincides with the car's key), the old owner is credited and the
new owner debited by the effective price — `car.Price` minus the
malfunction total when acknowledged, `car.Price` otherwise — and the car's
`Owner` becomes the new owner. -/
theorem claim_C2_balances (st : WorldState) (id newOwner : String)
    (flag : Bool) (car : Car) (oldUser newUser : User) (p : Int)
    (hcar : readCar st id = .ok car)
    (hold : readUser st car.Owner = .ok oldUser)
    (hnew : readUser st newOwner = .ok newUser)
    (hpos : ∀ m ∈ car.Malfunctions, 0 < m.Price)
    (hp : p = if flag then car.Price - malfTotal 0 car.Malfunctions
          else car.Price)
    (hflag : 0 < malfTotal 0 car.Malfunctions → flag = true)
    (hbal : ¬ newUser.Balance < p)
    (hd1 : oldUser.ID ≠ newOwner) (hd2 : oldUser.ID ≠ id)
    (hd3 : newOwner ≠ id) :
    (buyCar noFail st id newOwner flag).2 = none ∧
    (buyCar noFail st id newOwner flag).1 oldUser.ID =
      some (.userVal { oldUser with Balance := oldUser.Balance + p }) ∧
    (buyCar noFail st id newOwner flag).1 newOwner =
      some (.userVal { newUser with Balance := newUser.Balance - p }) ∧
    (buyCar noFail st id newOwner flag).1 id =
      some (.carVal { car with Owner := newOwner }) := by
  have hp' : p = if 0 < malfTotal 0 car.Malfunctions then
      car.Price - malfTotal 0 car.Malfunctions else car.Price := by
    by_cases hm : 0 < malfTotal 0 car.Malfunctions
    · rw [hflag hm] at hp
      rw [if_pos hm, hp, if_pos rfl]
    · have hm0 : malfTotal 0 car.Malfunctions = 0 :=
        le_antisymm (not_lt.mp hm) (malfTotal_nonneg _ hpos)
      rw [if_neg hm, hp, hm0]
      cases flag <;> simp
  have key := buyCar_success_state st id newOwner flag car oldUser newUser p
    hcar hold hnew hflag hp' hbal
  rw [key]
  dsimp only
  refine ⟨rfl, ?_, ?_, putState_apply_same _ _ _⟩
  · rw [putState_apply_of_ne _ _ _ hd2, putState_apply_of_ne _ _ _ hd1,
      putState_apply_same]
  · rw [putState_apply_of_ne _ _ _ hd3, putState_apply_same]

/-- Witness for C2 (amended): `"user1"` buys `car5V` from `"user2"`
acknowledging its 5000 of malfunctions; effective price 4000. -/
theorem claim_C2_balances_witness :
    (buyCar noFail initState "car5" "user1" true).2 = none ∧
    (buyCar noFail initState "car5" "user1" true).1 "user2" =
      some (.userVal { user2V with Balance := user2V.Balance + 4000 }) ∧
    (buyCar noFail initState "car5" "user1" true).1 "user1" =
      some (.userVal { user1V with Balance := user1V.Balance - 4000 }) ∧
    (buyCar noFail initState "car5" "user1" true).1 "car5" =
      some (.carVal { car5V with Owner := "user1" }) :=
  claim_C2_balances initState "car5" "user1" true car5V user2V user1V 4000
    rfl rfl rfl (by decide) (by decide) (fun _ => rfl) (by decide)
    (by decide) (by decide) (by decide)

/-- C4 counterexample: `car1V` has price 5000 and no malfunctions; adding a
malfunction of exactly 5000 makes the accumulated cost *equal* its price,
yet the call succeeds with the malfunction appended and the car still in
the store — it is not deleted, contrary to the claim's "meets or exceeds". -/
theorem claim_C4_counterexample :
    (addMalfunction noFail initState "car1" "Engine overhaul" 5000).2 = none ∧
    (addMalfunction noFail initState "car1" "Engine overhaul" 5000).1 "car1" =
      some (.carVal { car1V with
        Malfunctions := [⟨"Engine overhaul", 5000⟩] }) :=
  ⟨by decide, by decide⟩

/-- C4 (amended): a car is destroyed only when its accumulated malfunction
cost *strictly exceeds* its price (the write-off branch of C1); an
`AddMalfunction` call that brings the total exactly equal to `car.Price`
instead appends the malfunction and keeps the car. -/
theorem claim_C4_equal_total_keeps_car (st : WorldState) (id desc : String)
    (price : Int) (car : Car)
    (hcar : readCar st id = .ok car)
    (hpos : 0 < price)
    (heq : malfTotal price car.Malfunctions = car.Price) :
    addMalfunction noFail st id desc price =
      (putState st id (.carVal { car with
        Malfunctions := car.Malfunctions ++ [⟨desc, price⟩] }), none) := by
  unfold addMalfunction
  rw [hcar]
  dsimp only
  rw [if_neg (not_le.mpr hpos)]
  rw [if_neg (by rw [heq]; exact lt_irrefl car.Price)]
  simp [noFail]

/-- Witness for C4 (amended): the exact-equality call on `car1V`. -/
theorem claim_C4_equal_total_keeps_car_witness :
    addMalfunction noFail initState "car1" "Engine overhaul" 5000 =
      (putState initState "car1" (.carVal { car1V with
        Malfunctions := car1V.Malfunctions ++ [⟨"Engine overhaul", 5000⟩] }),
       none) :=
  claim_C4_equal_total_keeps_car initState "car1" "Engine overhaul" 5000 car1V
    rfl (by decide) (by decide)

/-- C5: a `BuyCar` call on an existing car with existing owner and buyer, a
strictly positive malfunction total and `acknowledgeMalfunctions = false`
fails with the cancellation error and returns the store *unchanged* (the
cancellation happens before any write), under any fault oracle. -/
theorem claim_C5_unacknowledged_cancel (wf : String → Bool) (st : WorldState)
    (id newOwner : String) (car : Car) (oldUser newUser : User)
    (hcar : readCar st id = .ok car)
    (hold : readUser st car.Owner = .ok oldUser)
    (hnew : readUser st newOwner = .ok newUser)
    (hmf : 0 < malfTotal 0 car.Malfunctions) :
    buyCar wf st id newOwner false =
      (st, some "car purhcase has been canceled due to car malfunctions") := by
  unfold buyCar
  rw [hcar]
  dsimp only
  rw [hold]
  dsimp only
  rw [hnew]
  dsimp only
  rw [if_pos hmf]
  rfl

/-- Witness for C5: the refused sale of `car5V` (5000 of malfunctions) to
`"user1"` with `acknowledgeMalfunctions = false`. -/
theorem claim_C5_unacknowledged_cancel_witness :
    buyCar noFail initState "car5" "user1" false =
      (initState,
       some "car purhcase has been canceled due to car malfunctions") :=
  claim_C5_unacknowledged_cancel noFail initState "car5" "user1" car5V
    user2V user1V rfl rfl rfl (by decide)

/-- C3 counterexample: the self-purchase `BuyCar("car1", "user1", true)`
succeeds, debits `"user1"` by the effective price 5000, but credits nobody
— the credit-carrying write to the same key is overwritten — so the total
balance over the users involved drops from 9000 to 4000: the debit is *not*
credited to any other party. -/
theorem claim_C3_counterexample :
    (buyCar noFail initState "car1" "user1" true).2 = none ∧
    (buyCar noFail initState "car1" "user1" true).1 "user1" =
      some (.userVal { user1V with Balance := 4000 }) ∧
    (4000 : Int) ≠ user1V.Balance :=
  ⟨by decide, by decide, by decide⟩

/-- C3 (amended): among the handlers, only `BuyCar` and `FixCar` write user
records — `AddMalfunction`, `ChangeColor` and `DeleteAsset` never produce a
user record that was not already stored unchanged — and each transfer
debits one party and credits the other by the same amount, conserving the
total over the users involved *provided the two parties' records live under
distinct keys*; when they coincide the later write overwrites the earlier
one (see the counterexample and C10). -/
theorem claim_C3_conservation :
    (∀ (st : WorldState) (id newOwner : String) (flag : Bool) (car : Car)
        (oldUser newUser : User) (p : Int),
      readCar st id = .ok car →
      readUser st car.Owner = .ok oldUser →
      readUser st newOwner = .ok newUser →
      (0 < malfTotal 0 car.Malfunctions → flag = true) →
      p = (if 0 < malfTotal 0 car.Malfunctions then
            car.Price - malfTotal 0 car.Malfunctions else car.Price) →
      ¬ newUser.Balance < p →
      oldUser.ID ≠ newOwner → oldUser.ID ≠ id → newOwner ≠ id →
      (buyCar noFail st id newOwner flag).1 oldUser.ID =
        some (.userVal { oldUser with Balance := oldUser.Balance + p }) ∧
      (buyCar noFail st id newOwner flag).1 newOwner =
        some (.userVal { newUser with Balance := newUser.Balance - p }) ∧
      (oldUser.Balance + p) + (newUser.Balance - p) =
        oldUser.Balance + newUser.Balance) ∧
    (∀ (st : WorldState) (id : String) (car : Car) (owner mechanic : User),
      readCar st id = .ok car →
      readUser st car.Owner = .ok owner →
      readUser st "user3" = .ok mechanic →
      ¬ owner.Balance < malfTotal 0 car.Malfunctions →
      owner.ID ≠ mechanic.ID → owner.ID ≠ id → mechanic.ID ≠ id →
      (fixCar noFail st id).1 owner.ID =
        some (.userVal { owner with
          Balance := owner.Balance - malfTotal 0 car.Malfunctions }) ∧
      (fixCar noFail st id).1 mechanic.ID =
        some (.userVal { mechanic with
          Balance := mechanic.Balance + malfTotal 0 car.Malfunctions }) ∧
      (owner.Balance - malfTotal 0 car.Malfunctions) +
        (mechanic.Balance + malfTotal 0 car.Malfunctions) =
        owner.Balance + mechanic.Balance) ∧
    (∀ (wf : String → Bool) (st : WorldState) (id desc : String)
        (price : Int) (k : String) (u : User),
      (addMalfunction wf st id desc price).1 k = some (.userVal u) →
      st k = some (.userVal u)) ∧
    (∀ (wf : String → Bool) (st : WorldState) (id color k : String)
        (u : User),
      (changeColor wf st id color).1 k = some (.userVal u) →
      st k = some (.userVal u)) ∧
    (∀ (wf : String → Bool) (st : WorldState) (id k : String) (u : User),
      (deleteAsset wf st id).1 k = some (.userVal u) →
      st k = some (.userVal u)) := by
  refine ⟨?_, ?_, addMalfunction_preserves_users, changeColor_preserves_users,
    deleteAsset_preserves_users⟩
  · intro st id newOwner flag car oldUser newUser p hcar hold hnew hflag hp
      hbal hd1 hd2 hd3
    have key := buyCar_success_state st id newOwner flag car oldUser newUser p
      hcar hold hnew hflag hp hbal
    rw [key]
    dsimp only
    refine ⟨?_, ?_, by ring⟩
    · rw [putState_apply_of_ne _ _ _ hd2, putState_apply_of_ne _ _ _ hd1,
        putState_apply_same]
    · rw [putState_apply_of_ne _ _ _ hd3, putState_apply_same]
  · intro st id car owner mechanic hcar hown hmech hbal hd1 hd2 hd3
    have key := fixCar_success_state st id car owner mechanic hcar hown hmech
      hbal
    rw [key]
    dsimp only
    refine ⟨?_, ?_, by ring⟩
    · rw [putState_apply_of_ne _ _ _ hd2, putState_apply_of_ne _ _ _ hd1,
        putState_apply_same]
    · rw [putState_apply_of_ne _ _ _ hd3, putState_apply_same]

/-- Witness for C3 (amended): the sale of `car5V` conserves
`9000 + 3500 = 12500`; the repair of `car2V` conserves `9000 + 4000`; and
concrete `AddMalfunction` / `ChangeColor` / `DeleteAsset` calls leave the
seeded user records exactly in place. -/
theorem claim_C3_conservation_witness :
    ((buyCar noFail initState "car5" "user1" true).1 "user2" =
        some (.userVal { user2V with Balance := user2V.Balance + 4000 }) ∧
      (buyCar noFail initState "car5" "user1" true).1 "user1" =
        some (.userVal { user1V with Balance := user1V.Balance - 4000 }) ∧
      (user2V.Balance + 4000) + (user1V.Balance - 4000) =
        user2V.Balance + user1V.Balance) ∧
    ((fixCar noFail initState "car2").1 "user1" =
        some (.userVal { user1V with Balance := user1V.Balance - 1500 }) ∧
      (fixCar noFail initState "car2").1 "user3" =
        some (.userVal { user3V with Balance := user3V.Balance + 1500 }) ∧
      (user1V.Balance - 1500) + (user3V.Balance + 1500) =
        user1V.Balance + user3V.Balance) ∧
    initState "user1" = some (.userVal user1V) ∧
    initState "user2" = some (.userVal user2V) ∧
    initState "user3" = some (.userVal user3V) :=
  ⟨claim_C3_conservation.1 initState "car5" "user1" true car5V user2V user1V
      4000 rfl rfl rfl (fun _ => rfl) (by decide) (by decide) (by decide)
      (by decide) (by decide),
    claim_C3_conservation.2.1 initState "car2" car2V user1V user3V
      rfl rfl rfl (by decide) (by decide) (by decide) (by decide),
    claim_C3_conservation.2.2.1 noFail initState "car1" "Dent" 1 "user1"
      user1V (by decide),
    claim_C3_conservation.2.2.2.1 noFail initState "car1" "Black" "user2"
      user2V (by decide),
    claim_C3_conservation.2.2.2.2 noFail initState "car1" "user3" user3V
      (by decide)⟩

/-- C6 counterexample: `car9V` is owned by `"user3"` — the mechanic account
itself.  `FixCar("car9")` succeeds, and the mechanic-credit write overwrites
the owner-debit write at the same key, so the single involved user's stored
balance *rises* by the repair cost 100: the claimed conservation
`owner + mechanic before = owner + mechanic after` fails (4000 before,
4100 after). -/
theorem claim_C6_counterexample :
    (fixCar noFail initState "car9").2 = none ∧
    (fixCar noFail initState "car9").1 "user3" =
      some (.userVal { user3V with Balance := user3V.Balance + 100 }) ∧
    user3V.Balance + 100 ≠ user3V.Balance :=
  ⟨by decide, by decide, by decide⟩

/-- C6 (amended): for every successful `FixCar(id)` call *whose owner
record is distinct from the mechanic record* (and both from the car's key),
the persisted car's `Malfunctions` list is empty, the owner (key
`owner.ID`) is debited and the mechanic (the fixed `"user3"` account, key
`mechanic.ID`) credited by the malfunction total, and their balance sum is
conserved; when the owner *is* the mechanic the credit overwrites the debit
(see the counterexample). -/
theorem claim_C6_fix_settlement (st : WorldState) (id : String) (car : Car)
    (owner mechanic : User)
    (hcar : readCar st id = .ok car)
    (hown : readUser st car.Owner = .ok owner)
    (hmech : readUser st "user3" = .ok mechanic)
    (hbal : ¬ owner.Balance < malfTotal 0 car.Malfunctions)
    (hd1 : owner.ID ≠ mechanic.ID) (hd2 : owner.ID ≠ id)
    (hd3 : mechanic.ID ≠ id) :
    (fixCar noFail st id).2 = none ∧
    (fixCar noFail st id).1 id =
      some (.carVal { car with Malfunctions := [] }) ∧
    (fixCar noFail st id).1 owner.ID =
      some (.userVal { owner with
        Balance := owner.Balance - malfTotal 0 car.Malfunctions }) ∧
    (fixCar noFail st id).1 mechanic.ID =
      some (.userVal { mechanic with
        Balance := mechanic.Balance + malfTotal 0 car.Malfunctions }) ∧
    (owner.Balance - malfTotal 0 car.Malfunctions) +
      (mechanic.Balance + malfTotal 0 car.Malfunctions) =
      owner.Balance + mechanic.Balance := by
  have key := fixCar_success_state st id car owner mechanic hcar hown hmech
    hbal
  rw [key]
  dsimp only
  refine ⟨rfl, putState_apply_same _ _ _, ?_, ?_, by ring⟩
  · rw [putState_apply_of_ne _ _ _ hd2, putState_apply_of_ne _ _ _ hd1,
      putState_apply_same]
  · rw [putState_apply_of_ne _ _ _ hd3, putState_apply_same]

/-- Witness for C6 (amended): repairing `car2V` (owner `"user1"`, 1500 of
malfunctions) empties its malfunction list and moves 1500 from `"user1"`
to `"user3"`. -/
theorem claim_C6_fix_settlement_witness :
    (fixCar noFail initState "car2").2 = none ∧
    (fixCar noFail initState "car2").1 "car2" =
      some (.carVal { car2V with Malfunctions := [] }) ∧
    (fixCar noFail initState "car2").1 "user1" =
      some (.userVal { user1V with Balance := user1V.Balance - 1500 }) ∧
    (fixCar noFail initState "car2").1 "user3" =
      some (.userVal { user3V with Balance := user3V.Balance + 1500 }) ∧
    (user1V.Balance - 1500) + (user3V.Balance + 1500) =
      user1V.Balance + user3V.Balance :=
  claim_C6_fix_settlement initState "car2" car2V user1V user3V
    rfl rfl rfl (by decide) (by decide) (by decide) (by decide)

/-- C7 counterexample: an `AddMalfunction` call with `price ≤ 0` on a car id
that is *absent* returns the NotFound error, not the ValidationError — the
`price <= 0` check runs only after the car has been read
(smartcontract.go lines 92-100).  The store is still unchanged. -/
theorem claim_C7_counterexample :
    (addMalfunction noFail emptyState "car1" "Flat tires" (-850)).2 =
      some "the car car1 does not exist" ∧
    "the car car1 does not exist" ≠ "price can't be zero or lower" ∧
    (addMalfunction noFail emptyState "car1" "Flat tires" (-850)).1 "car1" =
      none :=
  ⟨rfl, by decide, rfl⟩

/-- C7 (amended): for every `AddMalfunction` call with `price ≤ 0` *whose
target key is present in the store*, the operation returns exactly the
ValidationError `"price can't be zero or lower"` and the store unchanged,
under any fault oracle; when the key is absent the NotFound error is
returned instead (still with no state change). -/
theorem claim_C7_nonpositive_price (wf : String → Bool) (st : WorldState)
    (id desc : String) (price : Int) (v : StoredVal)
    (hex : st id = some v) (hple : price ≤ 0) :
    addMalfunction wf st id desc price =
      (st, some "price can't be zero or lower") := by
  have hread : readCar st id = .ok (carOfStored v) := by
    unfold readCar
    rw [hex]
    dsimp only
    rw [unmarshalCar_eq_carOfStored]
  unfold addMalfunction
  rw [hread]
  dsimp only
  rw [if_pos hple]

/-- Witness for C7 (amended): the demo app's rejected
`AddMalfunction("car1", "Flat tires", -850)`. -/
theorem claim_C7_nonpositive_price_witness :
    addMalfunction noFail initState "car1" "Flat tires" (-850) =
      (initState, some "price can't be zero or lower") :=
  claim_C7_nonpositive_price noFail initState "car1" "Flat tires" (-850)
    (.carVal car1V) rfl (by decide)

/-- C8 (the code bug made concrete): selling `car5V` from `"user2"` to
`"user1"` (effective price 4000) under a fault oracle where the platform
write to the old owner's key `"user2"` *fails*: line 260 of
smartcontract.go discards that `PutState` error, so the handler reports
success (`none`), the buyer is debited and the car reassigned, while the
seller's 4000 credit is silently lost — the claimed surfacing of every
write failure does not happen (the same pattern affects line 266 and
`FixCar`'s lines 313 and 319). -/
theorem claim_C8_ignored_write_failure :
    (buyCar wfOldOwner initState "car5" "user1" true).2 = none ∧
    (buyCar wfOldOwner initState "car5" "user1" true).1 "user2" =
      some (.userVal user2V) ∧
    (buyCar wfOldOwner initState "car5" "user1" true).1 "user1" =
      some (.userVal { user1V with Balance := user1V.Balance - 4000 }) ∧
    (buyCar wfOldOwner initState "car5" "user1" true).1 "car5" =
      some (.carVal { car5V with Owner := "user1" }) :=
  ⟨by decide, by decide, by decide, by decide⟩

/-- C9 counterexample: a `QueryAssets` selector matching the stored *user*
record `"user1"` does not abort: Go's `json.Unmarshal` ignores JSON fields
with no matching `Car` field, so the decode succeeds and the operation
returns a zero-filled `Car` (only `ID` and `DocType` populated) instead of
a DecodeError. -/
theorem claim_C9_counterexample :
    queryAssets [("user1", .userVal user1V)] = .ok [carOfUser user1V] ∧
    queryAssets [("user1", .userVal user1V)] ≠ .error "decode failure" :=
  ⟨rfl, fun h => Except.noConfusion h⟩

/-- C9 (amended): decoding never fails on records this engine writes —
`QueryAssets` over any mix of stored car and user records succeeds and
returns one decoded `Car` per matched record (user records coming back
zero-filled except `ID` and `DocType`), rather than aborting. -/
theorem claim_C9_decode_total (results : List (String × StoredVal)) :
    queryAssets results = .ok (results.map fun r => carOfStored r.2) := by
  induction results with
  | nil => rfl
  | cons r rest ih =>
    unfold queryAssets at ih ⊢
    unfold constructQueryResponseFromIterator
    rw [unmarshalCar_eq_carOfStored, ih]
    simp

/-- C10: a validated self-purchase — `newOwnerId` equal to the car's
current owner, taken from a store whose record `ID`s match their keys —
succeeds, and the user's persisted balance is their prior balance *minus*
the effective price: the credit-carrying write (line 260) and the
debit-carrying write (line 266) target the same key, and the later debit
overwrites the earlier credit. -/
theorem claim_C10_self_purchase (st : WorldState) (id owner : String)
    (flag : Bool) (car : Car) (u : User) (p : Int)
    (hcar : readCar st id = .ok car)
    (hown : car.Owner = owner)
    (hu : readUser st owner = .ok u)
    (hid : u.ID = owner)
    (hflag : 0 < malfTotal 0 car.Malfunctions → flag = true)
    (hp : p = if 0 < malfTotal 0 car.Malfunctions then
            car.Price - malfTotal 0 car.Malfunctions else car.Price)
    (hbal : ¬ u.Balance < p)
    (hkey : id ≠ owner) :
    (buyCar noFail st id owner flag).2 = none ∧
    (buyCar noFail st id owner flag).1 owner =
      some (.userVal { u with Balance := u.Balance - p }) ∧
    (∀ k, k ≠ owner → k ≠ id → (buyCar noFail st id owner flag).1 k = st k) := by
  have hold : readUser st car.Owner = .ok u := by rw [hown]; exact hu
  have key := buyCar_success_state st id owner flag car u u p hcar hold hu
    hflag hp hbal
  rw [key]
  dsimp only
  refine ⟨rfl, ?_, ?_⟩
  · rw [putState_apply_of_ne _ _ _ (Ne.symm hkey), putState_apply_same]
  · intro k hk1 hk2
    rw [putState_apply_of_ne _ _ _ hk2, putState_apply_of_ne _ _ _ hk1,
      putState_apply_of_ne _ _ _ (hid ▸ hk1)]

/-- Witness for C10: `"user1"` "buys" their own `car1V` for 5000; the call
succeeds, their stored balance drops from 9000 to 4000, and no other key
(in particular no other user) received the 5000 credit. -/
theorem claim_C10_self_purchase_witness :
    (buyCar noFail initState "car1" "user1" true).2 = none ∧
    (buyCar noFail initState "car1" "user1" true).1 "user1" =
      some (.userVal { user1V with Balance := user1V.Balance - 5000 }) ∧
    (buyCar noFail initState "car1" "user1" true).1 "user2" =
      initState "user2" := by
  have h := claim_C10_self_purchase initState "car1" "user1" true car1V
    user1V 5000 rfl rfl rfl rfl (fun h => absurd h (by decide)) (by decide)
    (by decide) (by decide)
  exact ⟨h.1, h.2.1, h.2.2 "user2" (by decide) (by decide)⟩

end Chaincode
